/-
  Verification of the ExG-Lab real-time EEG neurofeedback backend.

  Shallow embedding of the core processing pipeline:
  * `src/backend/src/processing/multi_scale.py` — spectral kernel, relaxation
    score, multi-device processing, trend derivation;
  * `src/backend/src/devices/stream.py` — rolling buffers, startup flush,
    recent-data snapshots;
  * `src/backend/src/processing/rate_control.py` — latest-frame slot merge;
  * `src/backend/src/session/storage.py` — the data recorder.

  Python dicts are modelled as association lists (first key occurrence wins on
  lookup, as keys are unique in all modelled dicts), numpy arrays as `List`,
  machine floats as `ℝ` (spectral path) or `ℚ` (control paths, where exact
  evaluation on concrete inputs matters).
-/
import Mathlib

namespace ExGLab

/-! ## Association-list model of Python dicts -/

/-- `d[k]` lookup: first entry with key `k`. Modelled dicts have unique keys. -/
def lookupKey {β : Type} (k : String) : List (String × β) → Option β
  | [] => none
  | p :: rest => if p.1 = k then some p.2 else lookupKey k rest

/-- `d[k] = v` update: replace the first entry with key `k`, or append. -/
def setKey {β : Type} (k : String) (v : β) : List (String × β) → List (String × β)
  | [] => [(k, v)]
  | p :: rest => if p.1 = k then (k, v) :: rest else p :: setKey k v rest

theorem lookupKey_setKey_self {β : Type} (k : String) (v : β) (l : List (String × β)) :
    lookupKey k (setKey k v l) = some v := by
  induction l with
  | nil => simp [setKey, lookupKey]
  | cons p rest ih =>
    by_cases h : p.1 = k
    · simp [setKey, h, lookupKey]
    · simp [setKey, h, lookupKey, ih]

theorem lookupKey_setKey_ne {β : Type} (k k' : String) (v : β) (l : List (String × β))
    (h : k' ≠ k) : lookupKey k' (setKey k v l) = lookupKey k' l := by
  induction l with
  | nil => simp [setKey, lookupKey, Ne.symm h]
  | cons p rest ih =>
    by_cases hp : p.1 = k
    · simp [setKey, hp, lookupKey, Ne.symm h]
    · rw [show setKey k v (p :: rest) = p :: setKey k v rest from by simp [setKey, hp]]
      by_cases hp' : p.1 = k'
      · simp [lookupKey, hp']
      · simp [lookupKey, hp', ih]

theorem lookupKey_mem {β : Type} {k : String} {v : β} {l : List (String × β)}
    (h : lookupKey k l = some v) : (k, v) ∈ l := by
  induction l with
  | nil => simp [lookupKey] at h
  | cons p rest ih =>
    obtain ⟨a, b⟩ := p
    by_cases hp : a = k
    · simp only [lookupKey, hp, if_true, Option.some.injEq] at h
      simp [List.mem_cons, hp, h]
    · simp only [lookupKey, hp, if_false] at h
      exact List.mem_cons_of_mem _ (ih h)

theorem mem_setKey {β : Type} {x : String × β} {k : String} {v : β} {l : List (String × β)}
    (h : x ∈ setKey k v l) : x ∈ l ∨ x = (k, v) := by
  induction l with
  | nil =>
    simp only [setKey, List.mem_singleton] at h
    right; exact h
  | cons p rest ih =>
    by_cases hp : p.1 = k
    · simp only [setKey, hp, if_true, List.mem_cons] at h
      rcases h with h1 | h1
      · right; exact h1
      · left; exact List.mem_cons_of_mem _ h1
    · simp only [setKey, hp, if_false, List.mem_cons] at h
      rcases h with h1 | h1
      · left; rw [List.mem_cons]; left; exact h1
      · rcases ih h1 with h2 | h2
        · left; exact List.mem_cons_of_mem _ h2
        · right; exact h2

/-! ## Python numeric conventions -/

/-- Python `int(x)`: truncation toward zero. -/
def pyInt {K : Type} [LinearOrderedField K] [FloorRing K] (x : K) : ℤ :=
  if 0 ≤ x then ⌊x⌋ else -⌊-x⌋

/-- Python slice `l[-n:]`: the last `n` elements — except that `l[-0:]` is the
whole list (`-0 = 0`, so the slice starts at the beginning). -/
def pySliceLastN {α : Type} (l : List α) (n : ℕ) : List α :=
  if n = 0 then l else l.drop (l.length - n)

/-- Python `round(x, 2)` modelled as round-to-nearest at two decimals
(ties of binary floats are not modelled; no modelled input hits a tie). -/
def round2 {K : Type} [LinearOrderedField K] [FloorRing K] (x : K) : K :=
  (round (100 * x) : ℤ) / 100

/-! ## SpectralKernel — `MultiScaleProcessor._compute_band_powers`

Embedded over `ℝ`/`ℂ`: `np.hanning`, `scipy.fft.rfft`, `scipy.fft.rfftfreq`,
the PSD `|X_k|² / N`, and the band-integration loop. -/

open Complex in
/-- `np.hanning N` at index `n`: `0.5 − 0.5·cos(2πn/(N−1))`; `np.hanning 1 = [1]`. -/
noncomputable def hann (N : ℕ) (n : ℕ) : ℝ :=
  if N ≤ 1 then 1 else 1 / 2 - 1 / 2 * Real.cos (2 * Real.pi * n / (N - 1))

/-- `signal_data * window` (element-wise), as a function of the index. -/
noncomputable def windowedSignal (x : List ℝ) (n : ℕ) : ℝ :=
  x.getD n 0 * hann x.length n

/-- `scipy.fft.rfft(windowed_signal)` bin `k`: the real-input DFT
`X_k = Σₙ x[n]·w[n]·exp(−2πi·k·n/N)`. -/
noncomputable def rfftVal (x : List ℝ) (k : ℕ) : ℂ :=
  ∑ n ∈ Finset.range x.length,
    (windowedSignal x n : ℂ) *
      Complex.exp (-(2 * Real.pi * Complex.I * k * n) / x.length)

/-- `scipy.fft.rfftfreq(N, 1/fs)` bin `k`: the frequency `k·fs/N`. -/
noncomputable def fftFreq (N : ℕ) (fs : ℝ) (k : ℕ) : ℝ :=
  (k : ℝ) * fs / N

/-- `psd = np.abs(fft_vals)**2 / N`. -/
noncomputable def psd (x : List ℝ) (k : ℕ) : ℝ :=
  Complex.abs (rfftVal x k) ^ 2 / x.length

/-- `np.where((fft_freqs >= low) & (fft_freqs < high))` over the
`N//2 + 1` rfft bins. -/
noncomputable def bandIdx (N : ℕ) (fs low high : ℝ) : Finset ℕ :=
  (Finset.range (N / 2 + 1)).filter fun k => low ≤ fftFreq N fs k ∧ fftFreq N fs k < high

/-- `freq_resolution = fft_freqs[1] - fft_freqs[0]`. -/
noncomputable def freqResolution (N : ℕ) (fs : ℝ) : ℝ :=
  fftFreq N fs 1 - fftFreq N fs 0

/-- `band_power = np.sum(psd[band_idx]) * freq_resolution`. -/
noncomputable def bandPower (x : List ℝ) (fs low high : ℝ) : ℝ :=
  (∑ k ∈ bandIdx x.length fs low high, psd x k) * freqResolution x.length fs

/-- `MultiScaleProcessor.BANDS`. -/
noncomputable def BANDS : List (String × ℝ × ℝ) :=
  [("delta", 0.5, 4), ("theta", 4, 8), ("alpha", 8, 13), ("beta", 13, 30), ("gamma", 30, 50)]

/-- `MultiScaleProcessor._compute_band_powers`: band-name → integrated power,
built by the loop over `BANDS`. -/
noncomputable def compute_band_powers (x : List ℝ) (fs : ℝ) : List (String × ℝ) :=
  BANDS.map fun b => (b.1, bandPower x fs b.2.1 b.2.2)

/-- Modelled from the spec's words (§4.1): sum of the one-sided PSD over the
bins whose frequency `f` satisfies `lo ≤ f < hi`, multiplied by the bin
spacing `f_s / N`. -/
noncomputable def specBandPower (x : List ℝ) (fs low high : ℝ) : ℝ :=
  (∑ k ∈ (Finset.range (x.length / 2 + 1)).filter
      (fun k : ℕ => low ≤ (k : ℝ) * fs / x.length ∧ (k : ℝ) * fs / x.length < high),
    Complex.abs (rfftVal x k) ^ 2 / x.length) * (fs / x.length)

/-- Modelled from the spec's words: the band table of §4.1 with the
closed-open ranges delta 0.5–4, theta 4–8, alpha 8–13, beta 13–30,
gamma 30–50 Hz. -/
noncomputable def specBandPowers (x : List ℝ) (fs : ℝ) : List (String × ℝ) :=
  [("delta", specBandPower x fs (1 / 2) 4),
   ("theta", specBandPower x fs 4 8),
   ("alpha", specBandPower x fs 8 13),
   ("beta", specBandPower x fs 13 30),
   ("gamma", specBandPower x fs 30 50)]

theorem freqResolution_eq (N : ℕ) (fs : ℝ) : freqResolution N fs = fs / N := by
  simp [freqResolution, fftFreq]

/-- **C1.** `_compute_band_powers` computes, for every input vector and sample
rate, exactly the spec's band powers: Hann window, real-input DFT, PSD
`|X_k|²/N`, summed over the bins with `lo ≤ f < hi` for each band of the
table, times the bin spacing `f_s/N`. -/
theorem c1_band_powers_match_spec (x : List ℝ) (fs : ℝ) :
    compute_band_powers x fs = specBandPowers x fs := by
  have hb : ∀ low high : ℝ, bandPower x fs low high = specBandPower x fs low high := by
    intro low high
    unfold bandPower specBandPower bandIdx psd fftFreq
    rw [freqResolution_eq]
  simp only [compute_band_powers, BANDS, specBandPowers, List.map_cons, List.map_nil, hb]
  norm_num

/-- Band powers are nonnegative for a nonnegative sample rate: each PSD term
is `|X_k|²/N ≥ 0` and the bin spacing is `fs/N ≥ 0`. Justifies the
nonnegativity hypotheses used for the relaxation and trend properties. -/
theorem bandPower_nonneg (x : List ℝ) {fs : ℝ} (hfs : 0 ≤ fs) (low high : ℝ) :
    0 ≤ bandPower x fs low high := by
  unfold bandPower
  apply mul_nonneg
  · apply Finset.sum_nonneg
    intro k _
    unfold psd
    positivity
  · rw [freqResolution_eq]
    positivity

/-! ## Relaxation score and trend — `process_single_device`, `compute_trend`

The control-flow parts are generic over a linear ordered field so they can be
evaluated exactly over `ℚ` and instantiated at `ℝ` where the spectral path
feeds them. -/

/-- `relaxation_score = avg_alpha / avg_beta if avg_beta > 0 else 0.0`
(multi_scale.py line 166). -/
def relaxationScore {K : Type} [LinearOrderedField K] (alpha beta : K) : K :=
  if 0 < beta then alpha / beta else 0

/-- **C2.** The relaxation score is average-alpha over average-beta, is 0 at
zero beta, is 1 for equal positive alpha and beta, and is invariant under
scaling both bands by a positive factor. (Band powers are nonnegative, see
`bandPower_nonneg`, so `0 ≤ beta` covers every reachable input.) -/
theorem c2_relaxation_identities (alpha beta k : ℝ)
    (hbeta : 0 ≤ beta) (halpha : 0 < alpha) (hk : 0 < k) :
    relaxationScore alpha beta = alpha / beta ∧
    relaxationScore alpha 0 = 0 ∧
    relaxationScore alpha alpha = 1 ∧
    relaxationScore (k * alpha) (k * beta) = relaxationScore alpha beta := by
  refine ⟨?_, ?_, ?_, ?_⟩
  · rcases lt_or_eq_of_le hbeta with h | h
    · rw [relaxationScore, if_pos h]
    · rw [relaxationScore, if_neg (by rw [← h]; exact lt_irrefl 0), ← h, div_zero]
  · simp [relaxationScore]
  · rw [relaxationScore, if_pos halpha, div_self (ne_of_gt halpha)]
  · rcases lt_or_eq_of_le hbeta with h | h
    · rw [relaxationScore, relaxationScore, if_pos h, if_pos (mul_pos hk h),
        mul_div_mul_left _ _ (ne_of_gt hk)]
    · rw [relaxationScore, relaxationScore, ← h, mul_zero,
        if_neg (lt_irrefl 0), if_neg (lt_irrefl 0)]

/-- Witness for C2 at `alpha = 2`, `beta = 2`, `k = 3`. -/
theorem c2_relaxation_identities_witness :
    (0 : ℝ) ≤ 2 ∧ (0 : ℝ) < 2 ∧ (0 : ℝ) < 3 ∧
    (relaxationScore (2 : ℝ) 2 = 2 / 2 ∧
     relaxationScore (2 : ℝ) 0 = 0 ∧
     relaxationScore (2 : ℝ) 2 = 1 ∧
     relaxationScore ((3 : ℝ) * 2) (3 * 2) = relaxationScore 2 2) :=
  ⟨by norm_num, by norm_num, by norm_num,
   c2_relaxation_identities 2 2 3 (by norm_num) (by norm_num) (by norm_num)⟩

/-- `MultiScaleProcessor.compute_trend`: looks up the `'1s'`, `'2s'`, `'4s'`
records, reads `metric` (default 0) out of each, and classifies against the
5% threshold. -/
def compute_trend {K : Type} [LinearOrderedField K]
    (timescale_results : List (String × List (String × K))) (metric : String) : String :=
  match lookupKey "1s" timescale_results, lookupKey "2s" timescale_results,
      lookupKey "4s" timescale_results with
  | some r1, some r2, some r4 =>
    let fast := (lookupKey metric r1).getD 0
    let balanced := (lookupKey metric r2).getD 0
    let stable := (lookupKey metric r4).getD 0
    let threshold : K := 5 / 100
    if fast > balanced * (1 + threshold) ∧ balanced > stable * (1 + threshold) then
      "IMPROVING"
    else if fast < balanced * (1 - threshold) ∧ balanced < stable * (1 - threshold) then
      "DECLINING"
    else
      "STABLE"
  | _, _, _ => "UNKNOWN"

/-- **C3.** Trend classification: `UNKNOWN` iff a timescale record is missing;
with all three present (and the nonnegative metric values the pipeline
produces), `IMPROVING`/`DECLINING` hold exactly under the threshold
inequalities and `STABLE` in every remaining case. -/
theorem c3_trend_classification {K : Type} [LinearOrderedField K]
    (tr : List (String × List (String × K))) (metric : String) :
    (compute_trend tr metric = "UNKNOWN" ↔
      (lookupKey "1s" tr = none ∨ lookupKey "2s" tr = none ∨ lookupKey "4s" tr = none)) ∧
    (∀ r1 r2 r4, lookupKey "1s" tr = some r1 → lookupKey "2s" tr = some r2 →
      lookupKey "4s" tr = some r4 →
      0 ≤ (lookupKey metric r1).getD 0 → 0 ≤ (lookupKey metric r2).getD 0 →
      0 ≤ (lookupKey metric r4).getD 0 →
      ((compute_trend tr metric = "IMPROVING" ↔
          (lookupKey metric r1).getD 0 > (lookupKey metric r2).getD 0 * (1 + 5 / 100) ∧
          (lookupKey metric r2).getD 0 > (lookupKey metric r4).getD 0 * (1 + 5 / 100)) ∧
       (compute_trend tr metric = "DECLINING" ↔
          (lookupKey metric r1).getD 0 < (lookupKey metric r2).getD 0 * (1 - 5 / 100) ∧
          (lookupKey metric r2).getD 0 < (lookupKey metric r4).getD 0 * (1 - 5 / 100)) ∧
       (compute_trend tr metric = "STABLE" ↔
          ¬((lookupKey metric r1).getD 0 > (lookupKey metric r2).getD 0 * (1 + 5 / 100) ∧
            (lookupKey metric r2).getD 0 > (lookupKey metric r4).getD 0 * (1 + 5 / 100)) ∧
          ¬((lookupKey metric r1).getD 0 < (lookupKey metric r2).getD 0 * (1 - 5 / 100) ∧
            (lookupKey metric r2).getD 0 < (lookupKey metric r4).getD 0 * (1 - 5 / 100))))) := by
  constructor
  · unfold compute_trend
    rcases h1 : lookupKey "1s" tr with _ | r1 <;>
      rcases h2 : lookupKey "2s" tr with _ | r2 <;>
        rcases h4 : lookupKey "4s" tr with _ | r4 <;>
          simp <;> split_ifs <;> simp_all
  · intro r1 r2 r4 h1 h2 h4 hf hb hs
    set fast := (lookupKey metric r1).getD 0 with hfast
    set balanced := (lookupKey metric r2).getD 0 with hbal
    set stable := (lookupKey metric r4).getD 0 with hstab
    have hrun : compute_trend tr metric =
        (if fast > balanced * (1 + 5 / 100) ∧ balanced > stable * (1 + 5 / 100) then
          "IMPROVING"
        else if fast < balanced * (1 - 5 / 100) ∧ balanced < stable * (1 - 5 / 100) then
          "DECLINING"
        else "STABLE") := by
      unfold compute_trend
      rw [h1, h2, h4]
    have hexcl : ¬((fast > balanced * (1 + 5 / 100) ∧ balanced > stable * (1 + 5 / 100)) ∧
        (fast < balanced * (1 - 5 / 100) ∧ balanced < stable * (1 - 5 / 100))) := by
      rintro ⟨⟨hi1, _⟩, ⟨hd1, _⟩⟩
      nlinarith
    rw [hrun]
    split_ifs with hcI hcD
    · refine ⟨by simp [hcI], ?_, ?_⟩
      · constructor
        · intro h; exact absurd h (by decide)
        · intro h; exact absurd ⟨hcI, h⟩ hexcl
      · constructor
        · intro h; exact absurd h (by decide)
        · intro h; exact absurd hcI h.1
    · refine ⟨?_, by simp [hcD], ?_⟩
      · constructor
        · intro h; exact absurd h (by decide)
        · intro h; exact absurd h hcI
      · constructor
        · intro h; exact absurd h (by decide)
        · intro h; exact absurd hcD h.2
    · refine ⟨?_, ?_, by simp [hcI, hcD]⟩
      · constructor
        · intro h; exact absurd h (by decide)
        · intro h; exact absurd h hcI
      · constructor
        · intro h; exact absurd h (by decide)
        · intro h; exact absurd h hcD

/-- Concrete three-timescale result map used by witnesses: relaxation values
`(3/2, 13/10, 11/10)` — the spec's IMPROVING example. -/
def trWitness : List (String × List (String × ℚ)) :=
  [("1s", [("relaxation", 3 / 2)]),
   ("2s", [("relaxation", 13 / 10)]),
   ("4s", [("relaxation", 11 / 10)])]

/-- Witness for C3 at the spec's `(1.5, 1.3, 1.1) → IMPROVING` example. -/
theorem c3_trend_classification_witness :
    (lookupKey "1s" trWitness = some [("relaxation", (3 : ℚ) / 2)] ∧
     (0 : ℚ) ≤ (lookupKey "relaxation" [("relaxation", (3 : ℚ) / 2)]).getD 0) ∧
    ((compute_trend trWitness "relaxation" = "IMPROVING" ↔
        (lookupKey "relaxation" [("relaxation", (3 : ℚ) / 2)]).getD 0 >
          (lookupKey "relaxation" [("relaxation", (13 : ℚ) / 10)]).getD 0 * (1 + 5 / 100) ∧
        (lookupKey "relaxation" [("relaxation", (13 : ℚ) / 10)]).getD 0 >
          (lookupKey "relaxation" [("relaxation", (11 : ℚ) / 10)]).getD 0 * (1 + 5 / 100)) ∧
     compute_trend trWitness "relaxation" = "IMPROVING") := by
  have h := (c3_trend_classification trWitness "relaxation").2
    [("relaxation", (3 : ℚ) / 2)] [("relaxation", (13 : ℚ) / 10)]
    [("relaxation", (11 : ℚ) / 10)]
    rfl rfl rfl (by norm_num [lookupKey])
    (by norm_num [lookupKey]) (by norm_num [lookupKey])
  refine ⟨⟨rfl, by norm_num [lookupKey]⟩, h.1, ?_⟩
  rw [h.1.2]
  norm_num [lookupKey]

/-! ## C4 — rounding at publication vs. the trend input

`process_single_device` stores `round(relaxation_score, 2)` in its result
(line 170), and `compute_trend` reads `timescale_results[ts][metric]` — the
rounded value. The following definitions expose exactly that data flow for
the relaxation metric. -/

/-- The `'1s'/'2s'/'4s'` result map as the code builds it: each record's
`'relaxation'` entry is `round(relaxation_score, 2)` of that timescale's
average alpha and beta band powers (multi_scale.py lines 166–170,
`process_multi_timescale` line 331). -/
def multiTimescaleRelaxations {K : Type} [LinearOrderedField K] [FloorRing K]
    (a1 b1 a2 b2 a4 b4 : K) : List (String × List (String × K)) :=
  [("1s", [("relaxation", round2 (relaxationScore a1 b1))]),
   ("2s", [("relaxation", round2 (relaxationScore a2 b2))]),
   ("4s", [("relaxation", round2 (relaxationScore a4 b4))])]

/-- Modelled from the spec: the same map carrying the unrounded per-timescale
relaxation scores, as §9 requires trend derivation to consume. -/
def multiTimescaleRelaxationsUnrounded {K : Type} [LinearOrderedField K]
    (a1 b1 a2 b2 a4 b4 : K) : List (String × List (String × K)) :=
  [("1s", [("relaxation", relaxationScore a1 b1)]),
   ("2s", [("relaxation", relaxationScore a2 b2)]),
   ("4s", [("relaxation", relaxationScore a4 b4)])]

/-- Evaluation of `compute_trend` on a literal three-record relaxation map. -/
theorem compute_trend_relaxation_eval {K : Type} [LinearOrderedField K] (f b s : K) :
    compute_trend
      [("1s", [("relaxation", f)]), ("2s", [("relaxation", b)]), ("4s", [("relaxation", s)])]
      "relaxation" =
    (if f > b * (1 + 5 / 100) ∧ b > s * (1 + 5 / 100) then "IMPROVING"
     else if f < b * (1 - 5 / 100) ∧ b < s * (1 - 5 / 100) then "DECLINING"
     else "STABLE") := rfl

/-- **C4 refuted.** With per-timescale average band powers
`(alpha, beta) = (1.052, 1), (1, 1), (0.9, 1)` the pipeline's trend — computed
from the rounded relaxation values the records actually carry — is `STABLE`,
while the trend from the unrounded relaxation scores is `IMPROVING`:
rounding does feed the downstream trend computation. -/
theorem c4_rounding_reaches_trend :
    compute_trend (multiTimescaleRelaxations ((1052 : ℚ) / 1000) 1 1 1 (9 / 10) 1)
        "relaxation" = "STABLE" ∧
    compute_trend (multiTimescaleRelaxationsUnrounded ((1052 : ℚ) / 1000) 1 1 1 (9 / 10) 1)
        "relaxation" = "IMPROVING" ∧
    compute_trend (multiTimescaleRelaxations ((1052 : ℚ) / 1000) 1 1 1 (9 / 10) 1)
        "relaxation" ≠
      compute_trend (multiTimescaleRelaxationsUnrounded ((1052 : ℚ) / 1000) 1 1 1 (9 / 10) 1)
        "relaxation" := by
  have hs1 : relaxationScore ((1052 : ℚ) / 1000) 1 = 1052 / 1000 := by
    norm_num [relaxationScore]
  have hs2 : relaxationScore (1 : ℚ) 1 = 1 := by norm_num [relaxationScore]
  have hs4 : relaxationScore ((9 : ℚ) / 10) 1 = 9 / 10 := by norm_num [relaxationScore]
  have hr1 : round2 ((1052 : ℚ) / 1000) = 21 / 20 := by
    rw [round2, round_eq]
    have : ⌊(100 * ((1052 : ℚ) / 1000) + 1 / 2 : ℚ)⌋ = (105 : ℤ) := by
      apply Int.floor_eq_iff.mpr
      constructor <;> norm_num
    rw [this]
    norm_num
  have hr2 : round2 ((1 : ℚ)) = 1 := by
    rw [round2]
    norm_num
  have hr4 : round2 ((9 : ℚ) / 10) = 9 / 10 := by
    rw [round2, round_eq]
    have : ⌊(100 * ((9 : ℚ) / 10) + 1 / 2 : ℚ)⌋ = (90 : ℤ) := by
      apply Int.floor_eq_iff.mpr
      constructor <;> norm_num
    rw [this]
    norm_num
  have hround : compute_trend
      (multiTimescaleRelaxations ((1052 : ℚ) / 1000) 1 1 1 (9 / 10) 1) "relaxation" =
      "STABLE" := by
    rw [multiTimescaleRelaxations, hs1, hs2, hs4, hr1, hr2, hr4,
      compute_trend_relaxation_eval]
    norm_num
  have hunround : compute_trend
      (multiTimescaleRelaxationsUnrounded ((1052 : ℚ) / 1000) 1 1 1 (9 / 10) 1)
      "relaxation" = "IMPROVING" := by
    rw [multiTimescaleRelaxationsUnrounded, hs1, hs2, hs4, compute_trend_relaxation_eval]
    norm_num
  refine ⟨hround, hunround, ?_⟩
  rw [hround, hunround]
  decide

/-! ## LSLStreamHandler — rolling buffers, startup flush, snapshots

Samples are `(timestamp, channel vector)` pairs over `ℚ` (exact model of the
float payload; the pairing models LSL's alignment of `chunk` rows with
`timestamps`). -/

/-- A pulled sample: `(timestamp, channel values)`. -/
abbrev Sample : Type := ℚ × List ℚ

/-- `deque(maxlen=cap).extend(new)`: append, keeping only the last `cap`
elements. -/
def dequeExtend (cap : ℕ) (buf new : List ℚ) : List ℚ :=
  ((buf ++ new).drop ((buf ++ new).length - cap))

theorem dequeExtend_length (cap : ℕ) (buf new : List ℚ) :
    (dequeExtend cap buf new).length = min cap (buf.length + new.length) := by
  simp [dequeExtend]
  omega

/-- Rolling state of one device: per-channel rings (in channel order) plus the
timestamp ring, as initialised by `start()` and mutated by `_pull_loop`. -/
structure RingState where
  channels : List (List ℚ)
  timestamps : List ℚ

/-- The per-channel ring extensions of one `_pull_loop` iteration: ring `i`
is extended with column `i` of the pulled chunk
(`self.rolling_buffers[ch_name].extend(chunk[:, i])`). -/
def extendChannels (cap : ℕ) (chunk : List Sample) : ℕ → List (List ℚ) → List (List ℚ)
  | _, [] => []
  | i, ring :: rest =>
    dequeExtend cap ring (chunk.map fun p => p.2.getD i 0) ::
      extendChannels cap chunk (i + 1) rest

/-- One `_pull_loop` iteration: an empty pull (`if timestamps:`) leaves the
buffers untouched; a nonempty chunk extends every channel ring and the
timestamp ring under the single lock acquisition. -/
def pullChunk (cap : ℕ) (st : RingState) (chunk : List Sample) : RingState :=
  if chunk.isEmpty then st
  else
    { channels := extendChannels cap chunk 0 st.channels,
      timestamps := dequeExtend cap st.timestamps (chunk.map Prod.fst) }

/-- `start()` ring initialisation: one empty ring per discovered channel and
an empty timestamp ring, all with the same `maxlen`. -/
def initRings (nChannels : ℕ) : RingState :=
  ⟨List.replicate nChannels [], []⟩

/-- The externally observable buffer states: the fold of `_pull_loop`
iterations from the initial state. -/
def runPull (cap nChannels : ℕ) (chunks : List (List Sample)) : RingState :=
  chunks.foldl (pullChunk cap) (initRings nChannels)

/-- `max_samples = int(self.buffer_duration * self.sample_rate)`. -/
def maxSamples (duration fs : ℚ) : ℕ :=
  (pyInt (duration * fs)).toNat

/-- Ring invariant: every channel ring has the timestamp ring's length, and
that length is at most the capacity. -/
def RingInv (cap : ℕ) (st : RingState) : Prop :=
  (∀ ring ∈ st.channels, ring.length = st.timestamps.length) ∧
    st.timestamps.length ≤ cap

theorem mem_extendChannels {cap : ℕ} {chunk : List Sample} {ring' : List ℚ} :
    ∀ {i : ℕ} {cs : List (List ℚ)}, ring' ∈ extendChannels cap chunk i cs →
      ∃ ring ∈ cs, ∃ j, ring' = dequeExtend cap ring (chunk.map fun p => p.2.getD j 0) := by
  intro i cs
  induction cs generalizing i with
  | nil => intro h; simp [extendChannels] at h
  | cons ring rest ih =>
    intro h
    simp only [extendChannels, List.mem_cons] at h
    rcases h with h | h
    · exact ⟨ring, List.mem_cons_self _ _, i, h⟩
    · obtain ⟨r, hr, j, hj⟩ := ih h
      exact ⟨r, List.mem_cons_of_mem _ hr, j, hj⟩

theorem pullChunk_inv {cap : ℕ} {st : RingState} (chunk : List Sample)
    (h : RingInv cap st) : RingInv cap (pullChunk cap st chunk) := by
  unfold pullChunk
  by_cases he : chunk.isEmpty = true
  · simpa [he]
  · rw [if_neg he]
    constructor
    · intro ring' hr'
      obtain ⟨ring, hring, j, hj⟩ := mem_extendChannels hr'
      rw [hj, dequeExtend_length, dequeExtend_length, h.1 ring hring]
      simp
    · rw [dequeExtend_length]
      omega

theorem runPull_inv (cap nChannels : ℕ) (chunks : List (List Sample)) :
    RingInv cap (runPull cap nChannels chunks) := by
  have hinit : RingInv cap (initRings nChannels) := by
    constructor
    · intro ring hring
      simp only [initRings] at hring
      rw [List.eq_of_mem_replicate hring]
      rfl
    · simp [initRings]
  rw [runPull]
  generalize initRings nChannels = st at hinit ⊢
  induction chunks generalizing st with
  | nil => simpa
  | cons c rest ih => exact ih _ (pullChunk_inv c hinit)

/-- **C6.** Across every append sequence (arbitrary chunk pulls), at each
externally observable state the timestamp ring holds at most
`capacity = int(buffer_duration * sample_rate)` samples, and every channel
ring has exactly the timestamp ring's length (hence is also bounded by the
capacity). -/
theorem c6_ring_bound_and_alignment (duration fs : ℚ) (nChannels : ℕ)
    (chunks : List (List Sample)) :
    (∀ ring ∈ (runPull (maxSamples duration fs) nChannels chunks).channels,
        ring.length = (runPull (maxSamples duration fs) nChannels chunks).timestamps.length ∧
        ring.length ≤ maxSamples duration fs) ∧
    (runPull (maxSamples duration fs) nChannels chunks).timestamps.length ≤
      maxSamples duration fs := by
  obtain ⟨h1, h2⟩ := runPull_inv (maxSamples duration fs) nChannels chunks
  exact ⟨fun ring hr => ⟨h1 ring hr, (h1 ring hr) ▸ h2⟩, h2⟩

/-- Concrete pull sequence for the C6 witness: two chunks on one channel with
capacity `maxSamples 1 2 = 2`. -/
def chunksW : List (List Sample) :=
  [[(1, [5]), (2, [6])], [(3, [7])]]

theorem maxSamples_one_two : maxSamples 1 2 = 2 := by
  have h2 : ((1 : ℚ) * 2) = 2 := by norm_num
  rw [maxSamples, pyInt, if_pos (by rw [h2]; norm_num), h2]
  norm_num
  decide

/-- Witness for C6: the single ring of the concrete run has the timestamp
ring's length and respects the capacity 2 (the second chunk evicted the
oldest sample). -/
theorem c6_ring_bound_and_alignment_witness :
    ([(6 : ℚ), 7] ∈ (runPull (maxSamples 1 2) 1 chunksW).channels ∧
      ([(6 : ℚ), 7]).length = (runPull (maxSamples 1 2) 1 chunksW).timestamps.length ∧
      ([(6 : ℚ), 7]).length ≤ maxSamples 1 2) ∧
    (runPull (maxSamples 1 2) 1 chunksW).timestamps.length ≤ maxSamples 1 2 := by
  have hmem : [(6 : ℚ), 7] ∈ (runPull (maxSamples 1 2) 1 chunksW).channels := by
    rw [maxSamples_one_two]
    decide
  obtain ⟨h1, h2⟩ := c6_ring_bound_and_alignment 1 2 1 chunksW
  exact ⟨⟨hmem, h1 _ hmem⟩, h2⟩

/-- Dict state read by `get_recent_data`: channel names, per-channel rolling
buffers, timestamp buffer. -/
structure StreamState where
  channel_names : List String
  rolling_buffers : List (String × List ℚ)
  timestamps_buffer : List ℚ

/-- `LSLStreamHandler.get_recent_data`: `n = int(duration * sample_rate)`;
`None` when fewer timestamps are buffered; otherwise each channel maps to
`list(buffer)[-n:]` copied out of the ring. -/
def get_recent_data (st : StreamState) (fs duration : ℚ) : Option (List (String × List ℚ)) :=
  if st.timestamps_buffer.length < (pyInt (duration * fs)).toNat then none
  else
    some (st.channel_names.map fun ch =>
      (ch, pySliceLastN ((lookupKey ch st.rolling_buffers).getD [])
        ((pyInt (duration * fs)).toNat)))

theorem lookupKey_map_self {β : Type} (F : String → β) (names : List String) (ch : String)
    (h : ch ∈ names) : lookupKey ch (names.map fun c => (c, F c)) = some (F ch) := by
  induction names with
  | nil => simp at h
  | cons a rest ih =>
    by_cases ha : a = ch
    · simp [lookupKey, ha]
    · rcases List.mem_cons.mp h with h' | h'
      · exact absurd h'.symm ha
      · simp [lookupKey, ha, ih h']

/-- **C5 as stated is false.** With one buffered sample and requested duration
`0` (so `⌊duration·f_s⌋ = 0`), the snapshot does not return 0 samples: the
Python slice `list(buffer)[-0:]` is the whole buffer, so the channel comes
back with 1 sample instead of 0. -/
theorem c5_snapshot_counterexample :
    get_recent_data ⟨["AF7"], [("AF7", [1])], [100]⟩ 256 0 = some [("AF7", [(1 : ℚ)])] ∧
    (pyInt ((0 : ℚ) * 256)).toNat = 0 ∧
    [(1 : ℚ)].length ≠ (pyInt ((0 : ℚ) * 256)).toNat := by
  have hn : (pyInt ((0 : ℚ) * 256)).toNat = 0 := by norm_num [pyInt]
  refine ⟨?_, hn, by rw [hn]; decide⟩
  rw [get_recent_data, if_neg (by rw [hn]; simp)]
  have hz : pyInt ((0 : ℚ)) = 0 := by norm_num [pyInt]
  simp [pySliceLastN, hn, hz, lookupKey]

/-- **C5 amended.** When `n = ⌊duration·f_s⌋ ≥ 1`: the snapshot is `None`
whenever fewer than `n` timestamps are buffered, and otherwise returns, for
every channel, exactly the `n` most-recent buffered samples (a suffix of the
ring of length exactly `n`). The `n = 0` case returns whole buffers instead
(see the counterexample). -/
theorem c5_snapshot_exactness (st : StreamState) (fs duration : ℚ) :
    (st.timestamps_buffer.length < (pyInt (duration * fs)).toNat →
      get_recent_data st fs duration = none) ∧
    ((pyInt (duration * fs)).toNat ≤ st.timestamps_buffer.length →
      1 ≤ (pyInt (duration * fs)).toNat →
      (∀ ch ∈ st.channel_names,
        ((lookupKey ch st.rolling_buffers).getD []).length = st.timestamps_buffer.length) →
      ∃ res, get_recent_data st fs duration = some res ∧
        ∀ ch ∈ st.channel_names, ∃ l, lookupKey ch res = some l ∧
          l.length = (pyInt (duration * fs)).toNat ∧
          l.IsSuffix ((lookupKey ch st.rolling_buffers).getD [])) := by
  constructor
  · intro hlt
    rw [get_recent_data, if_pos hlt]
  · intro hle hone hch
    refine ⟨_, by rw [get_recent_data, if_neg (by omega)], ?_⟩
    intro ch hmem
    refine ⟨pySliceLastN ((lookupKey ch st.rolling_buffers).getD [])
      ((pyInt (duration * fs)).toNat), lookupKey_map_self _ _ _ hmem, ?_, ?_⟩
    · rw [pySliceLastN, if_neg (by omega), List.length_drop, hch ch hmem]
      omega
    · rw [pySliceLastN, if_neg (by omega)]
      exact List.drop_suffix _ _

/-- Witness for the amended C5 at a two-sample buffer and `n = 1`: the
snapshot returns exactly the most-recent sample. -/
theorem c5_snapshot_exactness_witness :
    ((pyInt ((1 : ℚ) * 1)).toNat ≤
      (StreamState.mk ["AF7"] [("AF7", [4, 5])] [100, 101]).timestamps_buffer.length ∧
     1 ≤ (pyInt ((1 : ℚ) * 1)).toNat) ∧
    (∃ res, get_recent_data ⟨["AF7"], [("AF7", [4, 5])], [100, 101]⟩ 1 1 = some res ∧
      ∀ ch ∈ (StreamState.mk ["AF7"] [("AF7", [4, 5])] [100, 101]).channel_names,
        ∃ l, lookupKey ch res = some l ∧
          l.length = (pyInt ((1 : ℚ) * 1)).toNat ∧
          l.IsSuffix ((lookupKey ch
            (StreamState.mk ["AF7"] [("AF7", [4, 5])] [100, 101]).rolling_buffers).getD [])) := by
  have hn : (pyInt ((1 : ℚ) * 1)).toNat = 1 := by norm_num [pyInt]
  refine ⟨⟨by rw [hn]; decide, by rw [hn]⟩, ?_⟩
  exact (c5_snapshot_exactness ⟨["AF7"], [("AF7", [4, 5])], [100, 101]⟩ 1 1).2
    (by rw [hn]; decide) (by rw [hn]) (by intro ch hch; fin_cases hch <;> decide)

/-! ## Startup flush — `_flush_inlet_buffer` and `start()` ordering -/

/-- `_flush_inlet_buffer`: repeatedly `pull_chunk(timeout=0.0,
max_samples=1000)` until the inlet reports empty; returns
`(total_flushed, remaining queue)`. -/
def flush_inlet_buffer : List Sample → ℕ × List Sample
  | [] => (0, [])
  | x :: xs =>
    let rest := flush_inlet_buffer ((x :: xs).drop 1000)
    (((x :: xs).take 1000).length + rest.1, rest.2)
termination_by q => q.length
decreasing_by
  simp [List.length_drop]
  omega

theorem flush_inlet_buffer_eq (q : List Sample) : flush_inlet_buffer q = (q.length, []) := by
  have key : ∀ n (q : List Sample), q.length ≤ n → flush_inlet_buffer q = (q.length, []) := by
    intro n
    induction n with
    | zero =>
      intro q hq
      rw [List.eq_nil_of_length_eq_zero (Nat.le_zero.mp hq)]
      simp [flush_inlet_buffer]
    | succ n ih =>
      intro q hq
      match q with
      | [] => simp [flush_inlet_buffer]
      | x :: xs =>
        rw [flush_inlet_buffer, ih ((x :: xs).drop 1000) (by simp at hq ⊢; omega)]
        simp
        omega
  exact key q.length q le_rfl

/-- `LSLStreamHandler.start()` after link-up: the one-time flush runs first;
the pull loop then starts on whatever the flush left in the inlet queue
(prepended as its first pull) followed by the post-startup chunks. Returns
`(total_flushed, final buffers)`. -/
def startIngest (cap nChannels : ℕ) (backlog : List Sample) (live : List (List Sample)) :
    ℕ × RingState :=
  ((flush_inlet_buffer backlog).1,
    runPull cap nChannels ((flush_inlet_buffer backlog).2 :: live))

/-- **C7.** For every backlog present at link-up and every sequence of
post-startup pulls: the startup flush discards the whole backlog before the
ingest loop appends anything, the discarded count equals the backlog size
(observable for diagnostics), and the resulting buffers are exactly those of
a run over the post-startup chunks alone — no backlog sample reaches them. -/
theorem c7_startup_flush (cap nChannels : ℕ) (backlog : List Sample)
    (live : List (List Sample)) :
    (startIngest cap nChannels backlog live).1 = backlog.length ∧
    (startIngest cap nChannels backlog live).2 = runPull cap nChannels live := by
  constructor
  · rw [startIngest, flush_inlet_buffer_eq]
  · rw [startIngest, flush_inlet_buffer_eq]
    simp only [runPull, List.foldl_cons]
    rfl

/-! ## RateController — the latest-frame slot (`_calc_loop` step 6)

`DeviceMetrics` carries many payload fields in the source; only the device
id and the emission timestamp are relevant to the slot's replacement
behaviour, so the payload is elided here. -/

/-- A feature frame as stored in `latest_metrics`. -/
structure DeviceMetrics where
  subject : String
  timestamp : ℚ
deriving DecidableEq

/-- `self.latest_metrics.update(new_metrics)`: Python dict update — every key
of `new_metrics` is written into the slot, keys absent from it are retained. -/
def updateSlot (slot new_metrics : List (String × DeviceMetrics)) :
    List (String × DeviceMetrics) :=
  new_metrics.foldl (fun s p => setKey p.1 p.2 s) slot

/-- The slot contents after a sequence of compute-tick merges, starting from
the empty dict of `RateController.__init__`. -/
def runSlot (iterations : List (List (String × DeviceMetrics))) :
    List (String × DeviceMetrics) :=
  iterations.foldl updateSlot []

theorem lookupKey_updateSlot {slot new_metrics : List (String × DeviceMetrics)}
    {d : String} {f : DeviceMetrics}
    (h : lookupKey d (updateSlot slot new_metrics) = some f) :
    (∃ p ∈ new_metrics, p.1 = d ∧ p.2 = f) ∨ lookupKey d slot = some f := by
  induction new_metrics generalizing slot with
  | nil => right; exact h
  | cons p rest ih =>
    have h' : lookupKey d (updateSlot (setKey p.1 p.2 slot) rest) = some f := h
    rcases ih h' with ⟨q, hq, hqd, hqf⟩ | hold
    · exact Or.inl ⟨q, List.mem_cons_of_mem _ hq, hqd, hqf⟩
    · by_cases hd : p.1 = d
      · rw [← hd, lookupKey_setKey_self] at hold
        exact Or.inl ⟨p, List.mem_cons_self _ _, hd, (Option.some.injEq _ _).mp hold⟩
      · rw [lookupKey_setKey_ne _ _ _ _ (fun hdd => hd hdd.symm)] at hold
        exact Or.inr hold

theorem mem_updateSlot {slot new_metrics : List (String × DeviceMetrics)}
    {x : String × DeviceMetrics} (h : x ∈ updateSlot slot new_metrics) :
    x ∈ slot ∨ x ∈ new_metrics := by
  induction new_metrics generalizing slot with
  | nil => left; exact h
  | cons p rest ih =>
    rcases ih h with h' | h'
    · rcases mem_setKey h' with h'' | h''
      · left; exact h''
      · right; rw [h'']; exact List.mem_cons_self _ _
    · right; exact List.mem_cons_of_mem _ h'

theorem mem_runSlot {iterations : List (List (String × DeviceMetrics))}
    {x : String × DeviceMetrics} (h : x ∈ runSlot iterations) :
    x ∈ iterations.flatten := by
  have key : ∀ (its : List (List (String × DeviceMetrics)))
      (s : List (String × DeviceMetrics)), x ∈ its.foldl updateSlot s →
      x ∈ s ∨ x ∈ its.flatten := by
    intro its
    induction its with
    | nil => intro s hs; left; exact hs
    | cons a rest ih =>
      intro s hs
      rcases ih (updateSlot s a) hs with h' | h'
      · rcases mem_updateSlot h' with h'' | h''
        · left; exact h''
        · right
          simp only [List.flatten_cons, List.mem_append]
          left; exact h''
      · right
        simp only [List.flatten_cons, List.mem_append]
        right; exact h'
  rcases key iterations [] h with h' | h'
  · simp at h'
  · exact h'

/-- **C8.** Per-device monotonicity of the latest-frame slot: if the frame
timestamps are non-decreasing in program order across the compute-tick
merges (the single calc thread stamps frames with `time.time()` as it builds
them), then for every device id the timestamp stored in the slot never
decreases from one observable state to the next — a merge never replaces a
device's entry with an older frame. -/
theorem c8_slot_timestamp_monotone (its : List (List (String × DeviceMetrics)))
    (H : its.flatten.Pairwise fun p q => p.2.timestamp ≤ q.2.timestamp)
    (k : ℕ) (d : String) (f f' : DeviceMetrics)
    (h1 : lookupKey d (runSlot (its.take k)) = some f)
    (h2 : lookupKey d (runSlot (its.take (k + 1))) = some f') :
    f.timestamp ≤ f'.timestamp := by
  by_cases hk : k < its.length
  · have htake : its.take (k + 1) = its.take k ++ [its[k]] := by
      rw [List.take_succ, List.getElem?_eq_getElem hk]
      rfl
    have hrun : runSlot (its.take (k + 1)) = updateSlot (runSlot (its.take k)) its[k] := by
      rw [runSlot, htake, List.foldl_append]
      rfl
    rw [hrun] at h2
    rcases lookupKey_updateSlot h2 with ⟨p, hp, _, hpf⟩ | hold
    · have hfmem : (d, f) ∈ (its.take k).flatten := mem_runSlot (lookupKey_mem h1)
      have hsplit : its.flatten = (its.take k).flatten ++ (its.drop k).flatten := by
        rw [← List.flatten_append, List.take_append_drop]
      have hpmem : p ∈ (its.drop k).flatten := by
        rw [List.drop_eq_getElem_cons hk]
        simp only [List.flatten_cons, List.mem_append]
        left; exact hp
      have := (List.pairwise_append.mp (hsplit ▸ H)).2.2 (d, f) hfmem p hpmem
      rw [hpf] at this
      exact this
    · rw [h1] at hold
      rw [(Option.some.injEq _ _).mp hold]
  · have hge : its.length ≤ k := Nat.le_of_not_lt hk
    rw [List.take_of_length_le hge] at h1
    rw [List.take_of_length_le (Nat.le_succ_of_le hge)] at h2
    rw [h1] at h2
    rw [(Option.some.injEq _ _).mp h2]

/-- Concrete merge sequence for the C8 witness: two ticks for device `A`
with timestamps 1 then 2. -/
def slotTicks : List (List (String × DeviceMetrics)) :=
  [[("A", ⟨"A", 1⟩)], [("A", ⟨"A", 2⟩)]]

/-- Witness for C8: along `slotTicks` the stored timestamp for `A` goes from
1 to 2, and the theorem yields `1 ≤ 2`. -/
theorem c8_slot_timestamp_monotone_witness :
    slotTicks.flatten.Pairwise (fun p q => p.2.timestamp ≤ q.2.timestamp) ∧
    lookupKey "A" (runSlot (slotTicks.take 1)) = some ⟨"A", 1⟩ ∧
    lookupKey "A" (runSlot (slotTicks.take 2)) = some ⟨"A", 2⟩ ∧
    (DeviceMetrics.mk "A" 1).timestamp ≤ (DeviceMetrics.mk "A" 2).timestamp := by
  refine ⟨?_, rfl, rfl, ?_⟩
  · decide
  · exact c8_slot_timestamp_monotone slotTicks (by decide) 1 "A" ⟨"A", 1⟩ ⟨"A", 2⟩ rfl rfl

/-! ## Per-device processing — `process_single_device`, `process_multiple_devices` -/

/-- Result record of `process_single_device` (the wall-clock `computation_ms`
quality field is real-time behaviour and is elided). -/
structure DeviceResult where
  relaxation : ℝ
  alpha : ℝ
  beta : ℝ
  theta : ℝ
  delta : ℝ
  gamma : ℝ
  timescale : ℝ
  channels_used : List String
  samples : ℕ

/-- `MultiScaleProcessor.process_single_device`: channel presence check,
length check against `int(timescale * sample_rate)`, band powers of the two
frontal channels' most-recent windows, hemispheric average, relaxation
score, and the rounded result record. An index error on fewer than two
channels is caught by the surrounding `except` and yields `None`. -/
noncomputable def process_single_device (data : List (String × List ℝ))
    (timescale fs : ℝ) (channels : List String) : Option DeviceResult :=
  if channels.all fun ch => (lookupKey ch data).isSome then
    if channels.any (fun ch =>
        decide (((lookupKey ch data).getD []).length < (pyInt (timescale * fs)).toNat)) then
      none
    else
      match channels[0]?, channels[1]? with
      | some c0, some c1 =>
        let expected_samples := (pyInt (timescale * fs)).toNat
        let left_signal := pySliceLastN ((lookupKey c0 data).getD []) expected_samples
        let right_signal := pySliceLastN ((lookupKey c1 data).getD []) expected_samples
        let left_bands := compute_band_powers left_signal fs
        let right_bands := compute_band_powers right_signal fs
        let avg := fun b =>
          ((lookupKey b left_bands).getD 0 + (lookupKey b right_bands).getD 0) / 2
        some {
          relaxation := round2 (relaxationScore (avg "alpha") (avg "beta")),
          alpha := round2 (avg "alpha"),
          beta := round2 (avg "beta"),
          theta := round2 (avg "theta"),
          delta := round2 (avg "delta"),
          gamma := round2 (avg "gamma"),
          timescale := timescale,
          channels_used := channels,
          samples := expected_samples }
      | _, _ => none
  else none

/-- `MultiScaleProcessor.process_multiple_devices`: submit every device's
data to `process_single_device` (with the default frontal channels) and
collect only the successful results into the device-keyed dict. Collection
order under `as_completed` is nondeterministic; with unique device names the
resulting dict does not depend on it, so the model processes in list order. -/
noncomputable def process_multiple_devices
    (device_data : List (String × List (String × List ℝ))) (timescale fs : ℝ) :
    List (String × DeviceResult) :=
  match device_data with
  | [] => []
  | p :: rest =>
    let results := process_multiple_devices rest timescale fs
    match process_single_device p.2 timescale fs ["AF7", "AF8"] with
    | some r => setKey p.1 r results
    | none => results

theorem lookupKey_process_multiple_devices_of_not_mem
    {device_data : List (String × List (String × List ℝ))} {timescale fs : ℝ} {d : String}
    (h : d ∉ device_data.map Prod.fst) :
    lookupKey d (process_multiple_devices device_data timescale fs) = none := by
  induction device_data with
  | nil => rfl
  | cons p rest ih =>
    simp only [List.map_cons, List.mem_cons, not_or] at h
    rw [process_multiple_devices]
    rcases hps : process_single_device p.2 timescale fs ["AF7", "AF8"] with _ | r
    · exact ih h.2
    · show lookupKey d (setKey p.1 r (process_multiple_devices rest timescale fs)) = none
      rw [lookupKey_setKey_ne _ _ _ _ h.1]
      exact ih h.2

/-- **C9.** With distinct device names, the multi-device result keys are
exactly the devices whose own processing succeeded: each device's entry is
the result of processing its own data (so `None` — a raised exception,
missing frontal channel, or too-short window — omits the device), and no
other device's entry is removed or altered by that failure. -/
theorem c9_per_device_isolation (device_data : List (String × List (String × List ℝ)))
    (timescale fs : ℝ) (hnodup : (device_data.map Prod.fst).Nodup) (d : String) :
    lookupKey d (process_multiple_devices device_data timescale fs) =
      (lookupKey d device_data).bind
        fun data => process_single_device data timescale fs ["AF7", "AF8"] := by
  induction device_data with
  | nil => rfl
  | cons p rest ih =>
    simp only [List.map_cons, List.nodup_cons] at hnodup
    rw [process_multiple_devices]
    by_cases hd : p.1 = d
    · rw [show lookupKey d (p :: rest) = some p.2 from by simp [lookupKey, hd],
        Option.some_bind]
      rcases hps : process_single_device p.2 timescale fs ["AF7", "AF8"] with _ | r
      · exact lookupKey_process_multiple_devices_of_not_mem (hd ▸ hnodup.1)
      · show lookupKey d (setKey p.1 r (process_multiple_devices rest timescale fs)) = some r
        rw [← hd, lookupKey_setKey_self]
    · rw [show lookupKey d (p :: rest) = lookupKey d rest from by simp [lookupKey, hd]]
      rcases hps : process_single_device p.2 timescale fs ["AF7", "AF8"] with _ | r
      · exact ih hnodup.2
      · show lookupKey d (setKey p.1 r (process_multiple_devices rest timescale fs)) =
          (lookupKey d rest).bind fun data => process_single_device data timescale fs ["AF7", "AF8"]
        rw [lookupKey_setKey_ne _ _ _ _ (fun hdd : d = p.1 => hd hdd.symm)]
        exact ih hnodup.2

/-- Concrete two-device input for the C9 witness: `Muse_2` is missing the
frontal channels entirely. -/
noncomputable def deviceDataW : List (String × List (String × List ℝ)) :=
  [("Muse_1", [("AF7", [0]), ("AF8", [0])]), ("Muse_2", [])]

/-- Witness for C9 at `deviceDataW` and device `Muse_1`. -/
theorem c9_per_device_isolation_witness :
    (deviceDataW.map Prod.fst).Nodup ∧
    lookupKey "Muse_1" (process_multiple_devices deviceDataW 1 256) =
      (lookupKey "Muse_1" deviceDataW).bind
        fun data => process_single_device data 1 256 ["AF7", "AF8"] :=
  ⟨by decide, c9_per_device_isolation deviceDataW 1 256 (by decide) "Muse_1"⟩

/-! ## DataRecorder — `record_sample` -/

/-- Recorder state: recording flag, configured channel names and batch size,
registered writers, per-device batch buffers and sample counts, and the rows
already written to each device's file. -/
structure RecorderState where
  is_recording : Bool
  channel_names : List String
  buffer_size : ℕ
  csv_writers : List String
  buffers : List (String × List (ℚ × List ℚ))
  sample_counts : List (String × ℕ)
  files : List (String × List (List ℚ))
deriving DecidableEq

/-- `DataRecorder._flush_buffer`: no-op for an unknown device or an empty
batch; otherwise appends each row `[timestamp] + sample` to the device's
file and clears the batch (a missing writer raises inside the `try` and is
caught, leaving the state unchanged). -/
def flush_buffer (st : RecorderState) (device_name : String) : RecorderState :=
  match lookupKey device_name st.buffers with
  | none => st
  | some buffer =>
    if buffer.isEmpty then st
    else if device_name ∈ st.csv_writers then
      { st with
        files := setKey device_name
          (((lookupKey device_name st.files).getD []) ++ buffer.map fun p => p.1 :: p.2)
          st.files,
        buffers := setKey device_name [] st.buffers }
    else st

/-- `DataRecorder.record_sample`: ignore when not recording or the device is
unregistered; silently discard a sample whose length mismatches the
configured channel names; otherwise buffer it, bump the count, and flush a
full batch. -/
def record_sample (st : RecorderState) (device_name : String) (timestamp : ℚ)
    (sample : List ℚ) : RecorderState :=
  if st.is_recording = false then st
  else if device_name ∈ st.csv_writers then
    if sample.length ≠ st.channel_names.length then st
    else
      let st' := { st with
        buffers := setKey device_name
          (((lookupKey device_name st.buffers).getD []) ++ [(timestamp, sample)]) st.buffers,
        sample_counts := setKey device_name
          (((lookupKey device_name st.sample_counts).getD 0) + 1) st.sample_counts }
      if st.buffer_size ≤ ((lookupKey device_name st'.buffers).getD []).length then
        flush_buffer st' device_name
      else st'
  else st

/-- **C10.** While recording is active and the device is registered, a
`record_sample` call whose sample length differs from the configured channel
list returns normally with the recorder state entirely unchanged: no buffer
entry, no count increment, no file write. -/
theorem c10_length_mismatch_discarded (st : RecorderState) (device_name : String)
    (timestamp : ℚ) (sample : List ℚ)
    (hrec : st.is_recording = true) (hreg : device_name ∈ st.csv_writers)
    (hlen : sample.length ≠ st.channel_names.length) :
    record_sample st device_name timestamp sample = st := by
  rw [record_sample, if_neg (by rw [hrec]; simp), if_pos hreg, if_pos hlen]

/-- Concrete recorder state for the C10 witness: four configured channels,
one registered device, and a three-value sample. -/
def recorderW : RecorderState :=
  ⟨true, ["TP9", "AF7", "AF8", "TP10"], 256, ["Muse_1"],
    [("Muse_1", [])], [("Muse_1", 0)], [("Muse_1", [])]⟩

/-- Witness for C10: the mismatched sample `[1, 2, 3]` leaves `recorderW`
unchanged. -/
theorem c10_length_mismatch_discarded_witness :
    recorderW.is_recording = true ∧ "Muse_1" ∈ recorderW.csv_writers ∧
    ([(1 : ℚ), 2, 3]).length ≠ recorderW.channel_names.length ∧
    record_sample recorderW "Muse_1" 5 [1, 2, 3] = recorderW :=
  ⟨rfl, by decide, by decide,
    c10_length_mismatch_discarded recorderW "Muse_1" 5 [1, 2, 3] rfl (by decide) (by decide)⟩

end ExGLab
